import Mathlib

/-
Shallow embedding of src/abcd/Wallet.cpp (airbitz-core wallet cache).

The C file keeps a process-wide cache of decrypted wallet records
(gaWalletsCacheArray, an array scanned linearly by UUID) and offers:
  ABC_WalletSetName, ABC_WalletCacheData, ABC_WalletClearCache,
  ABC_WalletAddToCache, ABC_WalletGetFromCacheByUUID, ABC_WalletGetInfo.

The cache becomes a list of records (array order preserved: new entries are
appended at the end, lookup scans front to back and takes the first match).
External collaborators (account wallet-list JSON lookup, base16 decoding,
file existence, encrypted JSON file read/write, JSON field extraction,
archived flag, balance) are an explicit environment of pure functions, so a
whole call of a cache operation is a function of the environment and the
cache before the call. Fallible C paths (tABC_CC plus goto exit) become
Except; the mutex makes every operation atomic, which the sequential
semantics models directly.
-/

namespace AirbitzWallet

/-- File name constant WALLET_NAME_FILENAME from Wallet.cpp. -/
def WALLET_NAME_FILENAME : String := "WalletName.json"

/-- File name constant WALLET_CURRENCY_FILENAME from Wallet.cpp. -/
def WALLET_CURRENCY_FILENAME : String := "Currency.json"

/-- JSON field constant JSON_WALLET_NAME_FIELD from Wallet.cpp. -/
def JSON_WALLET_NAME_FIELD : String := "walletName"

/-- JSON field constant JSON_WALLET_CURRENCY_NUM_FIELD from Wallet.cpp. -/
def JSON_WALLET_CURRENCY_NUM_FIELD : String := "num"

/-- Error outcomes (the non-Ok values of tABC_CC that matter here).
walletAlreadyExists is ABC_CC_WalletAlreadyExists, produced by
ABC_WalletAddToCache; missingField models the status returned by the
generated dataKeyOk/bitcoinKeyOk/syncKeyOk checks when the JSON field is
absent; other covers every collaborator-chosen error code. -/
inductive Err where
  | walletAlreadyExists
  | missingField
  | other (n : Nat)
deriving DecidableEq, Repr

/-- The WalletJson view of the account wallet-list entry (struct WalletJson):
three optional string fields MK, SyncKey, BitcoinSeed. -/
structure WalletJson where
  dataKey : Option String
  syncKey : Option String
  bitcoinKey : Option String
deriving DecidableEq, Repr

/-- tWalletData: one cached wallet record. Byte buffers are lists of bytes
as naturals. -/
structure WalletData where
  szUUID : String
  szName : String
  szWalletAcctKey : String
  currencyNum : Int
  MK : List Nat
  BitcoinPrivateSeed : List Nat
deriving DecidableEq, Repr

/-- The global cache gaWalletsCacheArray / gWalletsCacheCount, in array
order. -/
abbrev Cache := List WalletData

/-- tABC_WalletInfo: the snapshot ABC_WalletGetInfo hands to the caller. -/
structure WalletInfo where
  szUUID : String
  szName : String
  currencyNum : Int
  archived : Bool
  balanceSatoshi : Int
deriving DecidableEq, Repr

/-- The external collaborators of Wallet.cpp, as pure functions keyed by
wallet id or path. walletJson is self.account.wallets.json; syncDir is
self.syncDir(); decryptJSONFile is ABC_CryptoDecryptJSONFile (path, MK);
getStringValue / getIntValue are ABC_UtilGet*ValueFromJSONString;
createValueJSONString is ABC_UtilCreateValueJSONString;
encryptJSONFile is ABC_CryptoEncryptJSONFile (payload, MK, path);
archived is self.account.wallets.archived; balance is self.balance. -/
structure Env where
  walletJson : String → Except Err WalletJson
  base16Decode : String → Except Err (List Nat)
  syncDir : String → String
  fileExists : String → Bool
  decryptJSONFile : String → List Nat → Except Err String
  getStringValue : String → String → Except Err String
  getIntValue : String → String → Except Err Int
  createValueJSONString : String → String → Except Err String
  encryptJSONFile : String → List Nat → String → Except Err Unit
  archived : String → Except Err Bool
  balance : String → Except Err Int

/-- The Wallet handle received as self: only its identity is used directly,
everything else goes through the environment. -/
structure WalletHandle where
  id : String

/-- The generated dataKeyOk / syncKeyOk / bitcoinKeyOk checks of the
ABC_JSON_STRING macros: fail when the field is absent. -/
def fieldOk : Option String → Except Err String
  | some s => Except.ok s
  | none => Except.error Err.missingField

/-- Wallet.cpp lines 178-189 inside ABC_WalletCacheData: obtain the wallet
name. If the name file exists, ABC_CryptoDecryptJSONFile with the master
key then ABC_UtilGetStringValueFromJSONString on field walletName,
propagating any failure; otherwise the name defaults to the empty
string. -/
def loadWalletName (env : Env) (syncDir : String) (mk : List Nat) :
    Except Err String :=
  let path := syncDir ++ WALLET_NAME_FILENAME
  if env.fileExists path then
    (env.decryptJSONFile path mk).bind
      (fun d => env.getStringValue d JSON_WALLET_NAME_FIELD)
  else
    Except.ok ""

/-- Wallet.cpp lines 191-202 inside ABC_WalletCacheData: obtain the currency
number. If the currency file exists, ABC_CryptoDecryptJSONFile with the
master key then ABC_UtilGetIntValueFromJSONString on field num, propagating
any failure; otherwise the currency defaults to -1. -/
def loadWalletCurrency (env : Env) (syncDir : String) (mk : List Nat) :
    Except Err Int :=
  let path := syncDir ++ WALLET_CURRENCY_FILENAME
  if env.fileExists path then
    (env.decryptJSONFile path mk).bind
      (fun d => env.getIntValue d JSON_WALLET_CURRENCY_NUM_FIELD)
  else
    Except.ok (-1)

/-- Wallet.cpp lines 147-203 of ABC_WalletCacheData: populate a fresh
tWalletData for the identity. Steps in source order: account wallet-list
JSON lookup; dataKeyOk check, base16 decode of MK; bitcoinKeyOk check,
base16 decode of BitcoinSeed; syncKeyOk check; then either defaults
(sync directory absent) or the two per-file loads. Any failing step aborts
the population with that error (ABC_CHECK_RET / ABC_CHECK_NEW goto
exit). -/
def cacheDataLoad (env : Env) (self : WalletHandle) : Except Err WalletData := do
  let syncDir := env.syncDir self.id
  let json ← env.walletJson self.id
  let dataKeyHex ← fieldOk json.dataKey
  let dataKey ← env.base16Decode dataKeyHex
  let bitcoinKeyHex ← fieldOk json.bitcoinKey
  let bitcoinKey ← env.base16Decode bitcoinKeyHex
  let syncKey ← fieldOk json.syncKey
  if !(env.fileExists syncDir) then
    pure ⟨self.id, "", syncKey, -1, dataKey, bitcoinKey⟩
  else do
    let szName ← loadWalletName env syncDir dataKey
    let currencyNum ← loadWalletCurrency env syncDir dataKey
    pure ⟨self.id, szName, syncKey, currencyNum, dataKey, bitcoinKey⟩

/-- ABC_WalletGetFromCacheByUUID: linear scan of the cache array, first
record whose szUUID matches, none when absent. -/
def ABC_WalletGetFromCacheByUUID (szUUID : String) : Cache → Option WalletData
  | [] => none
  | pData :: rest =>
    if pData.szUUID = szUUID then some pData
    else ABC_WalletGetFromCacheByUUID szUUID rest

/-- ABC_WalletAddToCache: if no record with this UUID exists, append the
record at position gWalletsCacheCount (the end); otherwise leave the cache
alone and return ABC_CC_WalletAlreadyExists. -/
def ABC_WalletAddToCache (pData : WalletData) (cache : Cache) :
    Except Err Unit × Cache :=
  match ABC_WalletGetFromCacheByUUID pData.szUUID cache with
  | none => (Except.ok (), cache ++ [pData])
  | some _ => (Except.error Err.walletAlreadyExists, cache)

/-- Wallet.cpp lines 205-213 of ABC_WalletCacheData: hand the freshly built
record to ABC_WalletAddToCache under ABC_CHECK_RET; on Ok the record is
returned through ppData, on any non-Ok status control jumps to exit, the
record is freed (discarded) and the status is returned. -/
def cacheDataInsert (pData : WalletData) (cache : Cache) :
    Except Err WalletData × Cache :=
  match ABC_WalletAddToCache pData cache with
  | (Except.ok _, cache2) => (Except.ok pData, cache2)
  | (Except.error e, cache2) => (Except.error e, cache2)

/-- ABC_WalletCacheData: under the core mutex, look the identity up in the
cache; on a hit return the cached record unchanged; on a miss run the
population (cacheDataLoad) and, if it succeeds, the add-to-cache step
(cacheDataInsert). Any error leaves the cache exactly as found. -/
def ABC_WalletCacheData (env : Env) (self : WalletHandle) (cache : Cache) :
    Except Err WalletData × Cache :=
  match ABC_WalletGetFromCacheByUUID self.id cache with
  | some pData => (Except.ok pData, cache)
  | none =>
    match cacheDataLoad env self with
    | Except.error e => (Except.error e, cache)
    | Except.ok pData => cacheDataInsert pData cache

/-- ABC_WalletClearCache: free every cached record and reset the count, so
the cache is empty afterwards. -/
def ABC_WalletClearCache (_cache : Cache) : Cache := []

/-- The in-place mutation pData->szName = szName seen through the cache
list: the record ABC_WalletGetFromCacheByUUID would return for this UUID
(the first match) gets the new name, everything else is untouched. -/
def setCachedName (szUUID szName : String) : Cache → Cache
  | [] => []
  | pData :: rest =>
    if pData.szUUID = szUUID then { pData with szName := szName } :: rest
    else pData :: setCachedName szUUID szName rest

/-- Wallet.cpp lines 103-111 of ABC_WalletSetName: after the in-place
rename, build the JSON payload with ABC_UtilCreateValueJSONString and
ABC_CryptoEncryptJSONFile it to syncDir + WALLET_NAME_FILENAME keyed by
the record's MK. These steps no longer touch the cache, so they are a pure
status. -/
def setNamePersist (env : Env) (self : WalletHandle) (szName : String)
    (mk : List Nat) : Except Err Unit := do
  let szJSON ← env.createValueJSONString szName JSON_WALLET_NAME_FIELD
  env.encryptJSONFile szJSON mk (env.syncDir self.id ++ WALLET_NAME_FILENAME)

/-- ABC_WalletSetName: load the record through ABC_WalletCacheData, then
overwrite the cached record's szName in place, then run the persistence
steps (setNamePersist). A failure after the overwrite leaves the new name
in the cache: the rename is not rolled back. -/
def ABC_WalletSetName (env : Env) (self : WalletHandle) (szName : String)
    (cache : Cache) : Except Err Unit × Cache :=
  match ABC_WalletCacheData env self cache with
  | (Except.error e, cache2) => (Except.error e, cache2)
  | (Except.ok pData, cache2) =>
    (setNamePersist env self szName pData.MK,
      setCachedName pData.szUUID szName cache2)

/-- ABC_WalletGetInfo: load the record through ABC_WalletCacheData, then
fill the snapshot: szUUID from self.id, szName and currencyNum from the
cached record, archived from the account wallet list, balanceSatoshi from
the balance collaborator. Any failing step jumps to exit, frees the
partially filled snapshot and returns the error, so the caller receives
either a complete snapshot or none. -/
def ABC_WalletGetInfo (env : Env) (self : WalletHandle) (cache : Cache) :
    Except Err WalletInfo × Cache :=
  match ABC_WalletCacheData env self cache with
  | (Except.error e, cache2) => (Except.error e, cache2)
  | (Except.ok pData, cache2) =>
    match env.archived self.id with
    | Except.error e => (Except.error e, cache2)
    | Except.ok archivedFlag =>
      match env.balance self.id with
      | Except.error e => (Except.error e, cache2)
      | Except.ok balanceSatoshi =>
        (Except.ok ⟨self.id, pData.szName, pData.currencyNum,
          archivedFlag, balanceSatoshi⟩, cache2)

/-- One facade call, for stating cache invariants over call sequences. -/
inductive WalletOp where
  | getOrLoad (env : Env) (self : WalletHandle)
  | setName (env : Env) (self : WalletHandle) (szName : String)
  | getInfo (env : Env) (self : WalletHandle)
  | clearCache

/-- The cache after one facade call. -/
def runOp (cache : Cache) : WalletOp → Cache
  | WalletOp.getOrLoad env self => (ABC_WalletCacheData env self cache).2
  | WalletOp.setName env self n => (ABC_WalletSetName env self n cache).2
  | WalletOp.getInfo env self => (ABC_WalletGetInfo env self cache).2
  | WalletOp.clearCache => ABC_WalletClearCache cache

/-- The cache after a sequence of facade calls. -/
def runOps (cache : Cache) (ops : List WalletOp) : Cache :=
  ops.foldl runOp cache

/-- No two entries of the cache hold the same UUID string. -/
def distinctIds (cache : Cache) : Prop :=
  (cache.map WalletData.szUUID).Nodup

deriving instance DecidableEq for Except

/-- Concrete wallet handle used by the evaluation witnesses. -/
def selfW : WalletHandle := ⟨"w1"⟩

/-- Concrete account wallet-list entry used by the evaluation witnesses. -/
def jsonW : WalletJson := ⟨some "AA11", some "sync1", some "BB22"⟩

/-- Environment whose key material resolves but whose sync directory does
not exist: a fresh wallet with no persisted metadata. -/
def envFresh : Env where
  walletJson := fun _ => Except.ok jsonW
  base16Decode := fun s => if s = "AA11" then Except.ok [170, 17] else Except.ok [187, 34]
  syncDir := fun w => "/sync/" ++ w ++ "/"
  fileExists := fun _ => false
  decryptJSONFile := fun _ _ => Except.error (Err.other 1)
  getStringValue := fun _ _ => Except.error (Err.other 2)
  getIntValue := fun _ _ => Except.error (Err.other 3)
  createValueJSONString := fun v f => Except.ok ("\x7b\"" ++ f ++ "\":\"" ++ v ++ "\"\x7d")
  encryptJSONFile := fun _ _ _ => Except.ok ()
  archived := fun _ => Except.ok false
  balance := fun _ => Except.ok 42

/-- Environment where the account wallet-list lookup itself fails, so
record population fails at its first step. -/
def envLookupFail : Env :=
  { envFresh with walletJson := fun _ => Except.error (Err.other 9) }

/-- Environment where the sync directory and the name file exist, the name
file decrypts and parses to a real name, and the currency file is absent. -/
def envNameOnly : Env :=
  { envFresh with
    fileExists := fun p => p = "/sync/w1/" || p = "/sync/w1/WalletName.json"
    decryptJSONFile := fun p _ =>
      if p = "/sync/w1/WalletName.json" then Except.ok "namePlaintext"
      else Except.error (Err.other 4)
    getStringValue := fun d f =>
      if d = "namePlaintext" && f = "walletName" then Except.ok "My Wallet"
      else Except.error (Err.other 5) }

/-- Environment whose record population succeeds (fresh wallet) but whose
archived-flag collaborator fails. -/
def envArchivedFail : Env :=
  { envFresh with archived := fun _ => Except.error (Err.other 6) }

/-- Environment whose record population succeeds (fresh wallet) but whose
encrypted-write collaborator fails. -/
def envWriteFail : Env :=
  { envFresh with encryptJSONFile := fun _ _ _ => Except.error (Err.other 8) }

/-- Concrete cached record used by counterexamples and witnesses. -/
def recA : WalletData := ⟨"w1", "Alice", "sync1", 840, [170, 17], [187, 34]⟩

/-- A second, differently populated record with the same UUID as recA. -/
def recB : WalletData := ⟨"w1", "Bob", "sync2", 978, [9, 9], [8, 8]⟩

/-- The record the fresh-wallet environments populate for selfW. -/
def recFresh : WalletData := ⟨"w1", "", "sync1", -1, [170, 17], [187, 34]⟩

section Lemmas

variable {env : Env} {self : WalletHandle} {cache : Cache}

/-- A successful cache lookup returns a record carrying the looked-up
UUID. -/
theorem getFromCache_some_uuid {u : String} {p : WalletData}
    (h : ABC_WalletGetFromCacheByUUID u cache = some p) : p.szUUID = u := by
  induction cache with
  | nil => simp [ABC_WalletGetFromCacheByUUID] at h
  | cons q rest ih =>
    by_cases hq : q.szUUID = u
    · simp [ABC_WalletGetFromCacheByUUID, hq] at h
      rw [← h]; exact hq
    · simp [ABC_WalletGetFromCacheByUUID, hq] at h
      exact ih h

/-- A successful cache lookup returns a member of the cache. -/
theorem getFromCache_some_mem {u : String} {p : WalletData}
    (h : ABC_WalletGetFromCacheByUUID u cache = some p) : p ∈ cache := by
  induction cache with
  | nil => simp [ABC_WalletGetFromCacheByUUID] at h
  | cons q rest ih =>
    by_cases hq : q.szUUID = u
    · simp [ABC_WalletGetFromCacheByUUID, hq] at h
      simp [h]
    · simp [ABC_WalletGetFromCacheByUUID, hq] at h
      exact List.mem_cons_of_mem q (ih h)

/-- A failed cache lookup means no cached record carries the UUID. -/
theorem getFromCache_none_iff {u : String} :
    ABC_WalletGetFromCacheByUUID u cache = none ↔
      ∀ q ∈ cache, q.szUUID ≠ u := by
  induction cache with
  | nil => simp [ABC_WalletGetFromCacheByUUID]
  | cons q rest ih =>
    by_cases hq : q.szUUID = u
    · simp [ABC_WalletGetFromCacheByUUID, hq]
    · simp [ABC_WalletGetFromCacheByUUID, hq, ih]

/-- Looking up a UUID absent from the front part of an appended cache finds
the appended record exactly when it carries the UUID. -/
theorem getFromCache_append {u : String} {p : WalletData}
    (h : ABC_WalletGetFromCacheByUUID u cache = none) (hp : p.szUUID = u) :
    ABC_WalletGetFromCacheByUUID u (cache ++ [p]) = some p := by
  induction cache with
  | nil => simp [ABC_WalletGetFromCacheByUUID, hp]
  | cons q rest ih =>
    by_cases hq : q.szUUID = u
    · simp [ABC_WalletGetFromCacheByUUID, hq] at h
    · simp [ABC_WalletGetFromCacheByUUID, hq] at h ⊢
      exact ih h

/-- A successfully populated record carries the identity it was populated
for. -/
theorem cacheDataLoad_ok_uuid {p : WalletData}
    (h : cacheDataLoad env self = Except.ok p) : p.szUUID = self.id := by
  unfold cacheDataLoad at h
  simp only [bind, Except.bind, pure, Except.pure] at h
  repeat' split at h
  all_goals try (rw [Except.ok.injEq] at h; rw [← h])
  all_goals exact Except.noConfusion h

/-- The cache produced by the insertion step is the cache produced by
ABC_WalletAddToCache. -/
theorem cacheDataInsert_snd (p : WalletData) (cache : Cache) :
    (cacheDataInsert p cache).2 = (ABC_WalletAddToCache p cache).2 := by
  unfold cacheDataInsert
  cases h : ABC_WalletAddToCache p cache with
  | mk r c => cases r <;> simp

/-- After a successful ABC_WalletCacheData call, looking the identity up in
the resulting cache finds exactly the returned record, and that record
carries the identity. -/
theorem cacheData_ok_lookup {p : WalletData} {cache2 : Cache}
    (h : ABC_WalletCacheData env self cache = (Except.ok p, cache2)) :
    ABC_WalletGetFromCacheByUUID self.id cache2 = some p ∧
      p.szUUID = self.id := by
  unfold ABC_WalletCacheData at h
  cases hl : ABC_WalletGetFromCacheByUUID self.id cache with
  | some q =>
    simp only [hl, Prod.mk.injEq, Except.ok.injEq] at h
    obtain ⟨rfl, rfl⟩ := h
    exact ⟨hl, getFromCache_some_uuid hl⟩
  | none =>
    cases hload : cacheDataLoad env self with
    | error e => simp only [hl, hload] at h; simp at h
    | ok q =>
      have huuid : q.szUUID = self.id := cacheDataLoad_ok_uuid hload
      unfold cacheDataInsert ABC_WalletAddToCache at h
      simp only [hl, hload, huuid, Prod.mk.injEq, Except.ok.injEq] at h
      obtain ⟨rfl, rfl⟩ := h
      exact ⟨getFromCache_append hl huuid, huuid⟩

/-- Renaming a cached record changes no UUID. -/
theorem setCachedName_map_uuid (u n : String) (cache : Cache) :
    (setCachedName u n cache).map WalletData.szUUID =
      cache.map WalletData.szUUID := by
  induction cache with
  | nil => rfl
  | cons q rest ih =>
    by_cases hq : q.szUUID = u <;> simp [setCachedName, hq, ih]

/-- Renaming the record a lookup finds yields the same record with the new
name on the next lookup. -/
theorem getFromCache_setCachedName {u n : String} {p : WalletData}
    (h : ABC_WalletGetFromCacheByUUID u cache = some p) :
    ABC_WalletGetFromCacheByUUID u (setCachedName u n cache) =
      some { p with szName := n } := by
  induction cache with
  | nil => simp [ABC_WalletGetFromCacheByUUID] at h
  | cons q rest ih =>
    by_cases hq : q.szUUID = u
    · rw [ABC_WalletGetFromCacheByUUID, if_pos hq] at h
      injection h with h
      subst h
      simp [setCachedName, hq, ABC_WalletGetFromCacheByUUID]
    · rw [ABC_WalletGetFromCacheByUUID, if_neg hq] at h
      simp only [setCachedName, if_neg hq]
      rw [ABC_WalletGetFromCacheByUUID, if_neg hq]
      exact ih h

/-- ABC_WalletAddToCache preserves UUID distinctness: it only ever inserts
a record whose UUID is absent. -/
theorem addToCache_distinct {p : WalletData} (h : distinctIds cache) :
    distinctIds (ABC_WalletAddToCache p cache).2 := by
  unfold ABC_WalletAddToCache
  cases hl : ABC_WalletGetFromCacheByUUID p.szUUID cache with
  | some q => exact h
  | none =>
    have habs : ∀ q ∈ cache, q.szUUID ≠ p.szUUID :=
      getFromCache_none_iff.mp hl
    unfold distinctIds at h ⊢
    simp only [List.map_append, List.map_cons, List.map_nil]
    rw [List.nodup_append]
    refine ⟨h, List.nodup_singleton _, ?_⟩
    intro a ha hb
    rw [List.mem_singleton] at hb
    subst hb
    obtain ⟨q, hq, hqa⟩ := List.mem_map.mp ha
    exact habs q hq hqa

/-- ABC_WalletCacheData preserves UUID distinctness of the cache. -/
theorem cacheData_distinct (h : distinctIds cache) :
    distinctIds (ABC_WalletCacheData env self cache).2 := by
  unfold ABC_WalletCacheData
  cases hl : ABC_WalletGetFromCacheByUUID self.id cache with
  | some q => exact h
  | none =>
    cases hload : cacheDataLoad env self with
    | error e => exact h
    | ok q =>
      simp only [cacheDataInsert_snd]
      exact addToCache_distinct h

/-- ABC_WalletSetName preserves UUID distinctness of the cache. -/
theorem setName_distinct {n : String} (h : distinctIds cache) :
    distinctIds (ABC_WalletSetName env self n cache).2 := by
  have hcd := @cacheData_distinct env self cache h
  unfold ABC_WalletSetName
  split
  next e cache2 heq =>
    rw [heq] at hcd
    exact hcd
  next pData cache2 heq =>
    rw [heq] at hcd
    unfold distinctIds at hcd ⊢
    rw [setCachedName_map_uuid]
    exact hcd

/-- ABC_WalletGetInfo preserves UUID distinctness of the cache. -/
theorem getInfo_distinct (h : distinctIds cache) :
    distinctIds (ABC_WalletGetInfo env self cache).2 := by
  have hcd := @cacheData_distinct env self cache h
  unfold ABC_WalletGetInfo
  split
  next e cache2 heq =>
    rw [heq] at hcd
    exact hcd
  next pData cache2 heq =>
    rw [heq] at hcd
    cases env.archived self.id with
    | error e => exact hcd
    | ok a =>
      cases env.balance self.id with
      | error e => exact hcd
      | ok b => exact hcd

/-- Every facade call preserves UUID distinctness of the cache. -/
theorem runOp_distinct {op : WalletOp} (h : distinctIds cache) :
    distinctIds (runOp cache op) := by
  cases op with
  | getOrLoad env self => exact cacheData_distinct h
  | setName env self n => exact setName_distinct h
  | getInfo env self => exact getInfo_distinct h
  | clearCache => exact List.nodup_nil

/-- Every sequence of facade calls preserves UUID distinctness. -/
theorem runOps_distinct {ops : List WalletOp} (h : distinctIds cache) :
    distinctIds (runOps cache ops) := by
  induction ops generalizing cache with
  | nil => exact h
  | cons op rest ih => exact ih (runOp_distinct h)

/-- ABC_WalletGetInfo never changes the cache beyond what its internal
ABC_WalletCacheData call does. -/
theorem getInfo_snd (env : Env) (self : WalletHandle) (cache : Cache) :
    (ABC_WalletGetInfo env self cache).2 =
      (ABC_WalletCacheData env self cache).2 := by
  unfold ABC_WalletGetInfo
  split
  next e cache2 heq => rw [heq]
  next pData cache2 heq =>
    rw [heq]
    cases env.archived self.id with
    | error e => rfl
    | ok a =>
      cases env.balance self.id with
      | error e => rfl
      | ok b => rfl

end Lemmas

section Claims

/-- Claim C1: for an identity not yet in the cache, any failure of record
population (account lookup, missing key-material field, hex decode, file
decryption or JSON parsing, all of which are exactly the failures of
cacheDataLoad) makes ABC_WalletCacheData return that error with the cache
unchanged, so no entry for the identity exists afterwards and a later call
starts population from a clean slate. -/
theorem C1_cacheData_failure_leaves_cache_unchanged (env : Env)
    (self : WalletHandle) (cache : Cache) (e : Err)
    (hnone : ABC_WalletGetFromCacheByUUID self.id cache = none)
    (hload : cacheDataLoad env self = Except.error e) :
    ABC_WalletCacheData env self cache = (Except.error e, cache) ∧
      ABC_WalletGetFromCacheByUUID self.id
        (ABC_WalletCacheData env self cache).2 = none := by
  have h1 : ABC_WalletCacheData env self cache = (Except.error e, cache) := by
    unfold ABC_WalletCacheData
    simp only [hnone, hload]
  refine ⟨h1, ?_⟩
  rw [h1]
  exact hnone

/-- Evaluation witness for C1: the account wallet-list lookup fails, the
call returns that error and the cache stays empty. -/
theorem C1_witness :
    ABC_WalletGetFromCacheByUUID selfW.id [] = none ∧
    cacheDataLoad envLookupFail selfW = Except.error (Err.other 9) ∧
    (ABC_WalletCacheData envLookupFail selfW [] =
        (Except.error (Err.other 9), []) ∧
      ABC_WalletGetFromCacheByUUID selfW.id
        (ABC_WalletCacheData envLookupFail selfW []).2 = none) :=
  ⟨rfl, rfl,
    C1_cacheData_failure_leaves_cache_unchanged envLookupFail selfW []
      (Err.other 9) rfl rfl⟩

/-- Claim C2, counterexample: when a record with the same UUID is already
present at the moment of insertion, the insertion step of the populate
operation does discard the fresh record and leave the cache unchanged, but
it returns the error ABC_CC_WalletAlreadyExists instead of returning the
existing cached record successfully, so the claim as stated is false. -/
theorem C2_counterexample_insert_errors :
    cacheDataInsert recB [recA] =
        (Except.error Err.walletAlreadyExists, [recA]) ∧
      cacheDataInsert recB [recA] ≠ (Except.ok recA, [recA]) := by
  exact ⟨rfl, by decide⟩

/-- Claim C2 as amended: for every record whose identity already has an
entry in the cache at the moment of insertion, the add-if-absent step
discards the freshly built record and leaves the cache unchanged, and the
populate operation propagates ABC_CC_WalletAlreadyExists as an error
rather than returning the existing record. -/
theorem C2_amended_insert_discards_and_errors (pData q : WalletData)
    (cache : Cache)
    (hexist : ABC_WalletGetFromCacheByUUID pData.szUUID cache = some q) :
    ABC_WalletAddToCache pData cache =
        (Except.error Err.walletAlreadyExists, cache) ∧
      cacheDataInsert pData cache =
        (Except.error Err.walletAlreadyExists, cache) := by
  have h1 : ABC_WalletAddToCache pData cache =
      (Except.error Err.walletAlreadyExists, cache) := by
    unfold ABC_WalletAddToCache
    rw [hexist]
  refine ⟨h1, ?_⟩
  unfold cacheDataInsert
  rw [h1]

/-- Evaluation witness for the amended C2. -/
theorem C2_amended_witness :
    ABC_WalletGetFromCacheByUUID recB.szUUID [recA] = some recA ∧
    (ABC_WalletAddToCache recB [recA] =
        (Except.error Err.walletAlreadyExists, [recA]) ∧
      cacheDataInsert recB [recA] =
        (Except.error Err.walletAlreadyExists, [recA])) :=
  ⟨rfl, C2_amended_insert_discards_and_errors recB recA [recA] rfl⟩

/-- Claim C3: when ABC_WalletSetName reaches the encrypted-write step and
that step fails, the in-memory rename has already happened and is not
rolled back: the call returns the write error, and the cached record for
the identity carries the new name afterwards. -/
theorem C3_setName_write_failure_keeps_new_name (env : Env)
    (self : WalletHandle) (szName szJSON : String) (cache cache2 : Cache)
    (pData : WalletData) (e : Err)
    (hcd : ABC_WalletCacheData env self cache = (Except.ok pData, cache2))
    (hjson : env.createValueJSONString szName JSON_WALLET_NAME_FIELD =
      Except.ok szJSON)
    (hwrite : env.encryptJSONFile szJSON pData.MK
        (env.syncDir self.id ++ WALLET_NAME_FILENAME) = Except.error e) :
    (ABC_WalletSetName env self szName cache).1 = Except.error e ∧
      ABC_WalletGetFromCacheByUUID self.id
          (ABC_WalletSetName env self szName cache).2 =
        some { pData with szName := szName } := by
  obtain ⟨hlook, huuid⟩ := cacheData_ok_lookup hcd
  have hpersist : setNamePersist env self szName pData.MK = Except.error e := by
    unfold setNamePersist
    simp only [bind, Except.bind, hjson, hwrite]
  have h1 : ABC_WalletSetName env self szName cache =
      (Except.error e, setCachedName pData.szUUID szName cache2) := by
    unfold ABC_WalletSetName
    simp only [hcd, hpersist]
  have h2 := getFromCache_setCachedName (n := szName) hlook
  constructor
  · rw [h1]
  · rw [h1, huuid]
    rw [huuid] at h2
    exact h2

/-- Evaluation witness for C3: the encrypted write fails and the cached
record keeps the new name. -/
theorem C3_witness :
    ABC_WalletCacheData envWriteFail selfW [recA] = (Except.ok recA, [recA]) ∧
    envWriteFail.encryptJSONFile
        "\x7b\"walletName\":\"Savings\"\x7d" recA.MK
        (envWriteFail.syncDir selfW.id ++ WALLET_NAME_FILENAME) =
      Except.error (Err.other 8) ∧
    ((ABC_WalletSetName envWriteFail selfW "Savings" [recA]).1 =
        Except.error (Err.other 8) ∧
      ABC_WalletGetFromCacheByUUID selfW.id
          (ABC_WalletSetName envWriteFail selfW "Savings" [recA]).2 =
        some { recA with szName := "Savings" }) :=
  ⟨rfl, rfl,
    C3_setName_write_failure_keeps_new_name envWriteFail selfW "Savings"
      "\x7b\"walletName\":\"Savings\"\x7d" [recA] [recA] recA (Err.other 8)
      rfl rfl rfl⟩

/-- Claim C4: starting from the empty cache of process start, after every
sequence of getOrLoad, setName, getInfo and clearCache calls the cache
holds at most one record per identity: no two entries share a UUID. -/
theorem C4_at_most_one_record_per_uuid (ops : List WalletOp) :
    distinctIds (runOps [] ops) :=
  runOps_distinct (by simp [distinctIds])

/-- Claim C5: for an identity whose record is already cached, a repeated
ABC_WalletCacheData call returns that cached record with the cache
unchanged, for every environment whatsoever: no disk read, decryption or
key-material resolution can influence the result. -/
theorem C5_repeated_getOrLoad_idempotent (self : WalletHandle)
    (cache : Cache) (pData : WalletData)
    (hhit : ABC_WalletGetFromCacheByUUID self.id cache = some pData) :
    ∀ env : Env, ABC_WalletCacheData env self cache =
      (Except.ok pData, cache) := by
  intro env
  unfold ABC_WalletCacheData
  simp only [hhit]

/-- Evaluation witness for C5: a second load of the cached wallet returns
the cached record unchanged even in an environment where every disk and
key-material collaborator fails. -/
theorem C5_witness :
    ABC_WalletGetFromCacheByUUID selfW.id [recA] = some recA ∧
    ABC_WalletCacheData envLookupFail selfW [recA] =
      (Except.ok recA, [recA]) :=
  ⟨rfl, C5_repeated_getOrLoad_idempotent selfW [recA] recA rfl envLookupFail⟩

/-- Claim C6: for an identity not yet cached whose key material resolves
(account entry found, all three fields present, both hex decodes succeed)
but whose sync directory does not exist on disk, ABC_WalletCacheData
succeeds and caches a record with the empty name and currency code -1. -/
theorem C6_missing_syncdir_defaults (env : Env) (self : WalletHandle)
    (cache : Cache) (json : WalletJson)
    (dataKeyHex bitcoinKeyHex syncKey : String)
    (dataKey bitcoinKey : List Nat)
    (hnone : ABC_WalletGetFromCacheByUUID self.id cache = none)
    (hjson : env.walletJson self.id = Except.ok json)
    (hdk : json.dataKey = some dataKeyHex)
    (hdkd : env.base16Decode dataKeyHex = Except.ok dataKey)
    (hbk : json.bitcoinKey = some bitcoinKeyHex)
    (hbkd : env.base16Decode bitcoinKeyHex = Except.ok bitcoinKey)
    (hsk : json.syncKey = some syncKey)
    (hdir : env.fileExists (env.syncDir self.id) = false) :
    ABC_WalletCacheData env self cache =
      (Except.ok ⟨self.id, "", syncKey, -1, dataKey, bitcoinKey⟩,
        cache ++ [⟨self.id, "", syncKey, -1, dataKey, bitcoinKey⟩]) := by
  have hload : cacheDataLoad env self =
      Except.ok ⟨self.id, "", syncKey, -1, dataKey, bitcoinKey⟩ := by
    unfold cacheDataLoad
    simp only [bind, Except.bind, pure, Except.pure, hjson, hdk, hdkd, hbk,
      hbkd, hsk, fieldOk, hdir, Bool.not_false, if_true]
  unfold ABC_WalletCacheData cacheDataInsert ABC_WalletAddToCache
  simp only [hnone, hload]

/-- Evaluation witness for C6: the fresh wallet loads with defaults. -/
theorem C6_witness :
    ABC_WalletGetFromCacheByUUID selfW.id [] = none ∧
    envFresh.fileExists (envFresh.syncDir selfW.id) = false ∧
    ABC_WalletCacheData envFresh selfW [] =
      (Except.ok recFresh, [recFresh]) :=
  ⟨rfl, rfl,
    C6_missing_syncdir_defaults envFresh selfW [] jsonW "AA11" "BB22" "sync1"
      [170, 17] [187, 34] rfl rfl rfl rfl rfl rfl rfl rfl⟩

/-- Claim C7: for an identity not yet cached whose key material resolves
and whose sync directory exists, the load handles the name file and the
currency file independently. The call is decided by the two per-file
outcomes: both succeed and the record carries both values, or the first
failing file outcome becomes the error of the whole load with the cache
unchanged. A present file is decrypted with the master key and parsed
(loadWalletName / loadWalletCurrency unfold to exactly that, last four
conjuncts), and an absent file contributes its default, the empty string
or -1, without affecting the other field. -/
theorem C7_fields_loaded_independently (env : Env) (self : WalletHandle)
    (cache : Cache) (json : WalletJson)
    (dataKeyHex bitcoinKeyHex syncKey : String)
    (dataKey bitcoinKey : List Nat)
    (hnone : ABC_WalletGetFromCacheByUUID self.id cache = none)
    (hjson : env.walletJson self.id = Except.ok json)
    (hdk : json.dataKey = some dataKeyHex)
    (hdkd : env.base16Decode dataKeyHex = Except.ok dataKey)
    (hbk : json.bitcoinKey = some bitcoinKeyHex)
    (hbkd : env.base16Decode bitcoinKeyHex = Except.ok bitcoinKey)
    (hsk : json.syncKey = some syncKey)
    (hdir : env.fileExists (env.syncDir self.id) = true) :
    (ABC_WalletCacheData env self cache =
      match loadWalletName env (env.syncDir self.id) dataKey,
          loadWalletCurrency env (env.syncDir self.id) dataKey with
      | Except.ok n, Except.ok c =>
        (Except.ok ⟨self.id, n, syncKey, c, dataKey, bitcoinKey⟩,
          cache ++ [⟨self.id, n, syncKey, c, dataKey, bitcoinKey⟩])
      | Except.error e, _ => (Except.error e, cache)
      | Except.ok _, Except.error e => (Except.error e, cache)) ∧
    (env.fileExists (env.syncDir self.id ++ WALLET_NAME_FILENAME) = false →
      loadWalletName env (env.syncDir self.id) dataKey = Except.ok "") ∧
    (env.fileExists (env.syncDir self.id ++ WALLET_NAME_FILENAME) = true →
      loadWalletName env (env.syncDir self.id) dataKey =
        (env.decryptJSONFile (env.syncDir self.id ++ WALLET_NAME_FILENAME)
            dataKey).bind
          (fun d => env.getStringValue d JSON_WALLET_NAME_FIELD)) ∧
    (env.fileExists (env.syncDir self.id ++ WALLET_CURRENCY_FILENAME) =
        false →
      loadWalletCurrency env (env.syncDir self.id) dataKey =
        Except.ok (-1)) ∧
    (env.fileExists (env.syncDir self.id ++ WALLET_CURRENCY_FILENAME) =
        true →
      loadWalletCurrency env (env.syncDir self.id) dataKey =
        (env.decryptJSONFile (env.syncDir self.id ++ WALLET_CURRENCY_FILENAME)
            dataKey).bind
          (fun d => env.getIntValue d JSON_WALLET_CURRENCY_NUM_FIELD)) := by
  have hstep : cacheDataLoad env self =
      (loadWalletName env (env.syncDir self.id) dataKey).bind (fun n =>
        (loadWalletCurrency env (env.syncDir self.id) dataKey).bind (fun c =>
          Except.ok ⟨self.id, n, syncKey, c, dataKey, bitcoinKey⟩)) := by
    unfold cacheDataLoad
    simp only [bind, Except.bind, pure, Except.pure, hjson, hdk, hdkd, hbk,
      hbkd, hsk, fieldOk, hdir, Bool.not_true, Bool.false_eq_true, if_false]
  refine ⟨?_, ?_, ?_, ?_, ?_⟩
  · cases hn : loadWalletName env (env.syncDir self.id) dataKey with
    | error e =>
      have hload : cacheDataLoad env self = Except.error e := by
        rw [hstep, hn]
        rfl
      unfold ABC_WalletCacheData
      simp only [hnone, hload]
    | ok n =>
      cases hc : loadWalletCurrency env (env.syncDir self.id) dataKey with
      | error e =>
        have hload : cacheDataLoad env self = Except.error e := by
          rw [hstep, hn]
          simp only [Except.bind, hc]
        unfold ABC_WalletCacheData
        simp only [hnone, hload]
      | ok c =>
        have hload : cacheDataLoad env self =
            Except.ok ⟨self.id, n, syncKey, c, dataKey, bitcoinKey⟩ := by
          rw [hstep, hn]
          simp only [Except.bind, hc]
        unfold ABC_WalletCacheData cacheDataInsert ABC_WalletAddToCache
        simp only [hnone, hload]
  · intro h
    simp [loadWalletName, h]
  · intro h
    simp [loadWalletName, h]
  · intro h
    simp [loadWalletCurrency, h]
  · intro h
    simp [loadWalletCurrency, h]

/-- Evaluation witness for C7: name file present and parsed, currency file
absent, and the record carries the real name next to the default currency
code -1. -/
theorem C7_witness :
    envNameOnly.fileExists (envNameOnly.syncDir selfW.id) = true ∧
    envNameOnly.fileExists
        (envNameOnly.syncDir selfW.id ++ WALLET_CURRENCY_FILENAME) = false ∧
    ABC_WalletCacheData envNameOnly selfW [] =
      (Except.ok ⟨"w1", "My Wallet", "sync1", -1, [170, 17], [187, 34]⟩,
        [⟨"w1", "My Wallet", "sync1", -1, [170, 17], [187, 34]⟩]) := by
  refine ⟨rfl, rfl, ?_⟩
  have h := (C7_fields_loaded_independently envNameOnly selfW [] jsonW
    "AA11" "BB22" "sync1" [170, 17] [187, 34]
    rfl rfl rfl rfl rfl rfl rfl rfl).1
  rw [h]
  rfl

/-- Claim C8: ABC_WalletGetInfo is all-or-nothing. A failure of the record
load, of the archived-flag lookup or of the balance computation makes the
whole call return that error and no snapshot; on success the snapshot
carries the id, the cached name, the cached currency code, the archived
flag and the balance. -/
theorem C8_getInfo_all_or_nothing (env : Env) (self : WalletHandle)
    (cache : Cache) :
    (∀ e cache2,
      ABC_WalletCacheData env self cache = (Except.error e, cache2) →
      ABC_WalletGetInfo env self cache = (Except.error e, cache2)) ∧
    (∀ pData cache2 e,
      ABC_WalletCacheData env self cache = (Except.ok pData, cache2) →
      env.archived self.id = Except.error e →
      ABC_WalletGetInfo env self cache = (Except.error e, cache2)) ∧
    (∀ pData cache2 a e,
      ABC_WalletCacheData env self cache = (Except.ok pData, cache2) →
      env.archived self.id = Except.ok a →
      env.balance self.id = Except.error e →
      ABC_WalletGetInfo env self cache = (Except.error e, cache2)) ∧
    (∀ pData cache2 a b,
      ABC_WalletCacheData env self cache = (Except.ok pData, cache2) →
      env.archived self.id = Except.ok a →
      env.balance self.id = Except.ok b →
      ABC_WalletGetInfo env self cache =
        (Except.ok ⟨self.id, pData.szName, pData.currencyNum, a, b⟩,
          cache2)) := by
  refine ⟨?_, ?_, ?_, ?_⟩
  · intro e cache2 h
    unfold ABC_WalletGetInfo
    simp only [h]
  · intro pData cache2 e h ha
    unfold ABC_WalletGetInfo
    simp only [h, ha]
  · intro pData cache2 a e h ha hb
    unfold ABC_WalletGetInfo
    simp only [h, ha, hb]
  · intro pData cache2 a b h ha hb
    unfold ABC_WalletGetInfo
    simp only [h, ha, hb]

/-- Evaluation witness for C8: the record load succeeds, the archived-flag
lookup fails, and the whole call returns that error with no snapshot. -/
theorem C8_witness :
    ABC_WalletCacheData envArchivedFail selfW [] =
      (Except.ok recFresh, [recFresh]) ∧
    envArchivedFail.archived selfW.id = Except.error (Err.other 6) ∧
    ABC_WalletGetInfo envArchivedFail selfW [] =
      (Except.error (Err.other 6), [recFresh]) :=
  ⟨rfl, rfl,
    (C8_getInfo_all_or_nothing envArchivedFail selfW []).2.1 recFresh
      [recFresh] (Err.other 6) rfl rfl⟩

/-- Claim C9: ABC_WalletClearCache leaves the cache empty, and a getOrLoad
after the clear repeats the disk load and yields a record with the same
field values as the load before the clear. -/
theorem C9_clearCache_then_reload (env : Env) (self : WalletHandle)
    (cache cache2 : Cache) (pData : WalletData)
    (hnone : ABC_WalletGetFromCacheByUUID self.id cache = none)
    (hfirst : ABC_WalletCacheData env self cache = (Except.ok pData, cache2)) :
    ABC_WalletClearCache cache2 = [] ∧
      ABC_WalletCacheData env self (ABC_WalletClearCache cache2) =
        (Except.ok pData, [pData]) := by
  have hload : cacheDataLoad env self = Except.ok pData := by
    unfold ABC_WalletCacheData at hfirst
    cases hl2 : cacheDataLoad env self with
    | error e =>
      simp only [hnone, hl2] at hfirst
      simp at hfirst
    | ok q =>
      have huuid : q.szUUID = self.id := cacheDataLoad_ok_uuid hl2
      unfold cacheDataInsert ABC_WalletAddToCache at hfirst
      simp only [hnone, hl2, huuid, Prod.mk.injEq, Except.ok.injEq] at hfirst
      rw [hfirst.1]
  refine ⟨rfl, ?_⟩
  unfold ABC_WalletCacheData cacheDataInsert ABC_WalletAddToCache
    ABC_WalletClearCache
  simp only [hload, ABC_WalletGetFromCacheByUUID, List.nil_append]

/-- Evaluation witness for C9: load, clear, reload yields the same record
values from a fresh load. -/
theorem C9_witness :
    ABC_WalletGetFromCacheByUUID selfW.id [] = none ∧
    ABC_WalletCacheData envFresh selfW [] =
      (Except.ok recFresh, [recFresh]) ∧
    (ABC_WalletClearCache [recFresh] = [] ∧
      ABC_WalletCacheData envFresh selfW (ABC_WalletClearCache [recFresh]) =
        (Except.ok recFresh, [recFresh])) :=
  ⟨rfl, rfl, C9_clearCache_then_reload envFresh selfW [] [recFresh]
    recFresh rfl rfl⟩

/-- Claim C10: when the identity was not cached and the internal record
population of ABC_WalletGetInfo succeeds but the call then fails (archived
flag or balance), the freshly populated record stays in the cache: the
failure does not undo the insertion. -/
theorem C10_getInfo_failure_keeps_record (env : Env) (self : WalletHandle)
    (cache cache2 : Cache) (pData : WalletData) (e : Err)
    (hnone : ABC_WalletGetFromCacheByUUID self.id cache = none)
    (hcd : ABC_WalletCacheData env self cache = (Except.ok pData, cache2))
    (hfail : (ABC_WalletGetInfo env self cache).1 = Except.error e) :
    (ABC_WalletGetInfo env self cache).2 = cache2 ∧
      ABC_WalletGetFromCacheByUUID self.id
        (ABC_WalletGetInfo env self cache).2 = some pData := by
  have hsnd : (ABC_WalletGetInfo env self cache).2 = cache2 := by
    rw [getInfo_snd, hcd]
  refine ⟨hsnd, ?_⟩
  rw [hsnd]
  exact (cacheData_ok_lookup hcd).1

/-- Evaluation witness for C10: the archived-flag lookup fails after a
successful population, and the fresh record is still cached afterwards. -/
theorem C10_witness :
    ABC_WalletGetFromCacheByUUID selfW.id [] = none ∧
    ABC_WalletCacheData envArchivedFail selfW [] =
      (Except.ok recFresh, [recFresh]) ∧
    (ABC_WalletGetInfo envArchivedFail selfW []).1 =
      Except.error (Err.other 6) ∧
    ((ABC_WalletGetInfo envArchivedFail selfW []).2 = [recFresh] ∧
      ABC_WalletGetFromCacheByUUID selfW.id
        (ABC_WalletGetInfo envArchivedFail selfW []).2 = some recFresh) :=
  ⟨rfl, rfl, rfl, C10_getInfo_failure_keeps_record envArchivedFail selfW []
    [recFresh] recFresh (Err.other 6) rfl rfl rfl⟩

end Claims

end AirbitzWallet
